import Mathlib

/-!
Verification of the orders feature of a layered frontend architecture
(presentation / use-case / repository / gateway).

The data model and the pure selector `select` are embedded directly from the
source (`useTotalItemsQuantitySelector.ts`).  The repository, gateway and the
remaining selectors are not present in the source tree (only their tests,
callers and declarations are), so they are modelled from the specification;
each such definition carries a doc comment starting `Modelled from the spec:`.
-/

namespace Orders

/-- `ItemEntity` from the domain types: `{ id, productId, quantity }` with
`quantity` an integer ≥ 0.  Ids are branded strings in the source. -/
structure ItemEntity where
  id : String
  productId : String
  quantity : Nat
deriving DecidableEq, Repr

/-- `OrderEntity` from the domain types: `{ id, userId, itemEntities }`,
owning an ordered sequence of items. -/
structure OrderEntity where
  id : String
  userId : String
  itemEntities : List ItemEntity
deriving DecidableEq, Repr

/-- The pure reducer of `useTotalItemsQuantitySelector.ts`:
`orders.reduce((acc, entity) => acc + entity.itemEntities.reduce((itemAcc, item) => itemAcc + item.quantity, 0), 0)`. -/
def select (orders : List OrderEntity) : Nat :=
  orders.foldl
    (fun acc entity =>
      acc + entity.itemEntities.foldl (fun itemAcc item => itemAcc + item.quantity) 0)
    0

/-- The total quantity carried by one order's items. -/
def orderQuantity (o : OrderEntity) : Nat :=
  (o.itemEntities.map ItemEntity.quantity).sum

lemma foldl_add_eq_add_sum (f : α → Nat) (l : List α) (n : Nat) :
    l.foldl (fun acc x => acc + f x) n = n + (l.map f).sum := by
  induction l generalizing n with
  | nil => simp
  | cons x xs ih => simp [List.foldl_cons, ih, Nat.add_assoc]

lemma inner_foldl_eq_orderQuantity (o : OrderEntity) :
    o.itemEntities.foldl (fun itemAcc item => itemAcc + item.quantity) 0
      = orderQuantity o := by
  simpa [orderQuantity] using
    foldl_add_eq_add_sum ItemEntity.quantity o.itemEntities 0

lemma select_eq_sum (orders : List OrderEntity) :
    select orders = (orders.map orderQuantity).sum := by
  have h :
      select orders
        = orders.foldl (fun acc entity => acc + orderQuantity entity) 0 := by
    unfold select
    congr 1
    funext acc entity
    rw [inner_foldl_eq_orderQuantity]
  rw [h]
  simpa using foldl_add_eq_add_sum orderQuantity orders 0

lemma select_cons (o : OrderEntity) (os : List OrderEntity) :
    select (o :: os) = orderQuantity o + select os := by
  simp [select_eq_sum]

/-- The `OrdersResource` enum `{local, remote}` selecting the backing gateway
(`local` is a Lean keyword, hence the `R` suffix on the constructors). -/
inductive OrdersResource where
  | localR
  | remoteR
deriving DecidableEq, Repr

/-- The status of the cached orders query for one resource key, as exposed by
the server-state library: not yet settled (loading), settled with data
(success), or settled with a fetch failure. -/
inductive QueryState where
  | loading
  | success (data : List OrderEntity)
  | failure
deriving DecidableEq, Repr

/-- Modelled from the spec: `ordersRepository.useGetOrders` is absent from the
source tree (only its callers and tests are present).  Per §4.2 it returns
`data: OrderEntity[]` with "fallback: empty sequence while loading or on
error". -/
def useGetOrdersData (q : QueryState) : List OrderEntity :=
  match q with
  | .success data => data
  | .loading => []
  | .failure => []

/-- `useTotalItemsQuantitySelector` from the source: applies the pure `select`
reducer to the repository's `data` snapshot. -/
def useTotalItemsQuantitySelector (q : QueryState) : Nat :=
  select (useGetOrdersData q)

/-- Modelled from the spec: `InMemoryOrdersGateway.deleteOrder` is absent from
the source tree.  Per §4.1 it "removes the order with that id" from the held
collection. -/
def gatewayDeleteOrder (orders : List OrderEntity) (orderId : String) :
    List OrderEntity :=
  orders.filter (fun o => o.id != orderId)

/-- Modelled from the spec: `InMemoryOrdersGateway.deleteItem` is absent from
the source tree.  Per §4.1 it "removes one item from one order"; the
integration tests pin the result to the target order with that item dropped
and every other order untouched. -/
def gatewayDeleteItem (orders : List OrderEntity) (orderId itemId : String) :
    List OrderEntity :=
  orders.map (fun o =>
    if o.id = orderId then
      { o with itemEntities := o.itemEntities.filter (fun it => it.id != itemId) }
    else o)

/-- Modelled from the spec: `useOrderIdsSelector` is absent from the source
tree.  Per §4.3 it is the "ordered sequence of order ids, same order as the
cached collection; empty sequence while loading/absent". -/
def orderIdsSelector (orders : List OrderEntity) : List String :=
  orders.map OrderEntity.id

/-- The hook form of `orderIdsSelector`, reading the repository snapshot with
its empty-sequence fallback. -/
def useOrderIdsSelector (q : QueryState) : List String :=
  orderIdsSelector (useGetOrdersData q)

/-- Modelled from the spec: `useIsLastOrderIdSelector` is absent from the
source tree.  Per §4.3 it is "true iff `id` equals the id of the final element
in the ordered sequence; false (never true) on an empty collection". -/
def isLastOrderIdSelector (orders : List OrderEntity) (orderId : String) : Bool :=
  match orders.getLast? with
  | some o => o.id == orderId
  | none => false

/-- Modelled from the spec: `useOrderByIdSelector` is absent from the source
tree.  Per §4.3 it is "the OrderEntity with that id, or 'not found' sentinel
(absence) if no match". -/
def orderByIdSelector (orders : List OrderEntity) (orderId : String) :
    Option OrderEntity :=
  orders.find? (fun o => o.id == orderId)

/-- A gateway mutation: delete one order, or delete one item of one order. -/
inductive Mutation where
  | delOrder (orderId : String)
  | delItem (orderId itemId : String)
deriving DecidableEq, Repr

/-- Effect of one mutation on a gateway's held collection. -/
def applyGatewayMutation (m : Mutation) (orders : List OrderEntity) :
    List OrderEntity :=
  match m with
  | .delOrder orderId => gatewayDeleteOrder orders orderId
  | .delItem orderId itemId => gatewayDeleteItem orders orderId itemId

/-- Modelled from the spec: the `ordersRepository` state is absent from the
source tree.  Per §4.2 and §9 the cache holds one entry per
`(feature, resource)` key — the feature component is the constant `orders`
feature, so entries are indexed here by resource alone — next to the gateway
each resource is backed by; `pending` counts unsettled fetches/mutations for
the active resource, from which the processing flag is derived (§3). -/
structure RepoState where
  gatewayData : OrdersResource → List OrderEntity
  cache : OrdersResource → QueryState
  pending : Nat

/-- Reading the collection under one resource key: the `useGetOrders` data
snapshot of that key's cache entry. -/
def readOrders (s : RepoState) (r : OrdersResource) : List OrderEntity :=
  useGetOrdersData (s.cache r)

/-- Modelled from the spec: `useIsOrdersProcessingSelector` is absent from the
source tree.  Per §3 the processing flag is "is any fetch or mutation for the
orders collection currently in flight". -/
def isOrdersProcessingSelector (s : RepoState) : Bool :=
  s.pending != 0

/-- A mutation starts: one more operation is in flight. -/
def startMutation (s : RepoState) : RepoState :=
  { s with pending := s.pending + 1 }

/-- Modelled from the spec: the success path of `useDeleteOrder` /
`useDeleteOrderItem` is absent from the source tree.  Per §4.2 the gateway
backing resource `r` applies the mutation, then the cache entry for that
resource alone is invalidated and the next read refetches — collapsed here
into that entry becoming `success` of the fresh gateway data.  The other
resource's gateway data and cache entry are left as they were. -/
def applyMutationSuccess (s : RepoState) (r : OrdersResource) (m : Mutation) :
    RepoState :=
  { s with
    gatewayData := fun r2 =>
      if r2 = r then applyGatewayMutation m (s.gatewayData r) else s.gatewayData r2
    cache := fun r2 =>
      if r2 = r then .success (applyGatewayMutation m (s.gatewayData r))
      else s.cache r2 }

/-- Modelled from the spec: settling a mutation (§4.2, §7).  On success the
cache for the active resource is invalidated and refetched; on failure the
rejection is surfaced to the caller and the cache is left at its
last-known-good state.  Either way the operation is no longer in flight. -/
def settleMutation (s : RepoState) (r : OrdersResource) (m : Mutation)
    (outcome : Except String Unit) : RepoState × Except String Unit :=
  match outcome with
  | .ok _ => ({ applyMutationSuccess s r m with pending := s.pending - 1 }, .ok ())
  | .error e => ({ s with pending := s.pending - 1 }, .error e)

/-- A sequence of successful mutations executed against one resource. -/
def applyMutations (s : RepoState) (r : OrdersResource) :
    List Mutation → RepoState
  | [] => s
  | m :: ms => applyMutations (applyMutationSuccess s r m) r ms

/-- Result shape of the Order container's `usePresenter`: either
`{ hasOrder: false }` or the full view model. -/
inductive Presenter where
  | noOrder
  | order (userId orderId : String) (itemIds : List String)
      (isLastOrder isDeleteOrderButtonDisabled : Bool)
deriving DecidableEq, Repr

/-- The `hasOrder` discriminant of the presenter result. -/
def Presenter.hasOrder : Presenter → Bool
  | .noOrder => false
  | .order _ _ _ _ _ => true

/-- The Order container's `usePresenter` from the source
(`views/containers/Order/hooks/usePresenter/usePresenter.ts`): looks the order
up by id, and returns `{ hasOrder: false }` when it is absent, else the view
model with item ids, the is-last flag and the processing-derived disabled
flag. -/
def usePresenter (orders : List OrderEntity) (isProcessingOrders : Bool)
    (orderId : String) : Presenter :=
  match orderByIdSelector orders orderId with
  | none => .noOrder
  | some o =>
      .order o.userId o.id (o.itemEntities.map ItemEntity.id)
        (isLastOrderIdSelector orders orderId) isProcessingOrders

/-- Modelled from the spec: `useItemByIdSelector` is absent from the source
tree.  It resolves the item with `itemId` inside the order with `orderId`,
absence as `none`. -/
def itemByIdSelector (orders : List OrderEntity) (orderId itemId : String) :
    Option ItemEntity :=
  (orderByIdSelector orders orderId).bind
    (fun o => o.itemEntities.find? (fun it => it.id == itemId))

/-- The data the OrderItem view puts on screen when it renders. -/
structure RenderedOrderItem where
  itemId : String
  productId : String
  quantity : Nat
deriving DecidableEq, Repr

/-- The OrderItem container from the source (`OrderItem.tsx`): when its
presenter reports no item it returns `null` (renders nothing), otherwise it
renders the item's id, product id and quantity.  The presenter's item lookup
(`usePresenter.ts` of OrderItem, absent from the source tree) is modelled from
the spec through `itemByIdSelector`. -/
def renderOrderItem (orders : List OrderEntity) (orderId itemId : String) :
    Option RenderedOrderItem :=
  match itemByIdSelector orders orderId itemId with
  | none => none
  | some it => some { itemId := it.id, productId := it.productId, quantity := it.quantity }

/-- Modelled from the spec: the `makeOrderEntities` fixture factory is absent
from the source tree.  §8 pins only its observable totals: the summed item
quantities are 1825, the first order carries 365 units, and the first item of
the following order carries 75 units.  A concrete collection realising those
totals. -/
def seedOrders : List OrderEntity :=
  [ { id := "1", userId := "u1",
      itemEntities :=
        [ { id := "i1", productId := "p1", quantity := 100 },
          { id := "i2", productId := "p2", quantity := 265 } ] },
    { id := "2", userId := "u2",
      itemEntities :=
        [ { id := "i3", productId := "p3", quantity := 75 },
          { id := "i4", productId := "p4", quantity := 200 },
          { id := "i5", productId := "p5", quantity := 300 } ] },
    { id := "3", userId := "u3",
      itemEntities :=
        [ { id := "i6", productId := "p6", quantity := 500 },
          { id := "i7", productId := "p7", quantity := 385 } ] } ]

/-- A quiescent repository state used to instantiate closed corollaries. -/
def sampleRepoState : RepoState :=
  { gatewayData := fun _ => []
    cache := fun _ => .loading
    pending := 0 }

lemma filter_id_ne_eq_self (os : List OrderEntity) (oid : String)
    (h : ∀ o ∈ os, o.id ≠ oid) :
    os.filter (fun o => o.id != oid) = os := by
  rw [List.filter_eq_self]
  intro o ho
  simpa [bne_iff_ne] using h o ho

lemma gatewayDeleteOrder_eq_erase (orders : List OrderEntity) (o : OrderEntity)
    (h1 : o ∈ orders) (h2 : (orders.map OrderEntity.id).Nodup) :
    gatewayDeleteOrder orders o.id = orders.erase o := by
  induction orders with
  | nil => cases h1
  | cons x xs ih =>
      have h2' : x.id ∉ xs.map OrderEntity.id ∧ (xs.map OrderEntity.id).Nodup := by
        rw [List.map_cons, List.nodup_cons] at h2
        exact h2
      have hx_notin : x.id ∉ xs.map OrderEntity.id := h2'.1
      have hxs_nodup : (xs.map OrderEntity.id).Nodup := h2'.2
      by_cases hxo : x = o
      · subst hxo
        have hall : ∀ o2 ∈ xs, o2.id ≠ x.id := by
          intro o2 ho2 he
          exact hx_notin (he ▸ List.mem_map_of_mem OrderEntity.id ho2)
        simp only [gatewayDeleteOrder, List.filter_cons, bne_self_eq_false,
          List.erase_cons_head]
        exact filter_id_ne_eq_self xs x.id hall
      · have ho_mem : o ∈ xs := by
          rcases List.mem_cons.mp h1 with h | h
          · exact absurd h.symm hxo
          · exact h
        have hne : x.id ≠ o.id := by
          intro he
          exact hx_notin (he ▸ List.mem_map_of_mem OrderEntity.id ho_mem)
        have hkeep : (x.id != o.id) = true := by simpa [bne_iff_ne] using hne
        simp only [gatewayDeleteOrder, List.filter_cons, hkeep, if_true]
        rw [List.erase_cons_tail (by simpa using hxo)]
        exact congrArg (x :: ·) (ih ho_mem hxs_nodup)

lemma select_perm {l1 l2 : List OrderEntity} (h : l1.Perm l2) :
    select l1 = select l2 := by
  rw [select_eq_sum, select_eq_sum]
  exact (h.map orderQuantity).sum_eq

lemma applyMutationSuccess_cache_other (s : RepoState) (r : OrdersResource)
    (m : Mutation) (r2 : OrdersResource) (h : r2 ≠ r) :
    (applyMutationSuccess s r m).cache r2 = s.cache r2 := by
  simp [applyMutationSuccess, h]

lemma applyMutations_cache_other (ms : List Mutation) (s : RepoState)
    (r : OrdersResource) (r2 : OrdersResource) (h : r2 ≠ r) :
    (applyMutations s r ms).cache r2 = s.cache r2 := by
  induction ms generalizing s with
  | nil => rfl
  | cons m ms ih =>
      simpa [applyMutations, applyMutationSuccess_cache_other _ _ _ _ h]
        using ih (applyMutationSuccess s r m)

/-- C1: for every collection of orders, `totalItemsQuantitySelector`'s reducer
returns the sum of the `quantity` field of every item across every order, and
for the empty collection it returns exactly 0. -/
theorem select_total_quantity (orders : List OrderEntity) :
    select orders
        = (orders.map (fun o => (o.itemEntities.map ItemEntity.quantity).sum)).sum
      ∧ select [] = 0 := by
  refine ⟨?_, rfl⟩
  simpa [orderQuantity] using select_eq_sum orders

/-- C2: after a successful `deleteOrder(orderId)` the refetched collection
contains no order with that id, and the total item quantity drops by exactly
the deleted order's item quantities; the subsequent read through the
repository is the gateway's post-delete collection. -/
theorem deleteOrder_removes_id_and_subtracts_total (orders : List OrderEntity)
    (o : OrderEntity) (h1 : o ∈ orders)
    (h2 : (orders.map OrderEntity.id).Nodup) :
    (∀ o2 ∈ gatewayDeleteOrder orders o.id, o2.id ≠ o.id)
      ∧ select (gatewayDeleteOrder orders o.id)
          = select orders - orderQuantity o
      ∧ select orders
          = select (gatewayDeleteOrder orders o.id) + orderQuantity o
      ∧ (∀ (s : RepoState) (r : OrdersResource),
          readOrders
              (settleMutation (startMutation s) r (.delOrder o.id) (.ok ())).1 r
            = gatewayDeleteOrder (s.gatewayData r) o.id) := by
  have herase := gatewayDeleteOrder_eq_erase orders o h1 h2
  have hperm : orders.Perm (o :: orders.erase o) := List.perm_cons_erase h1
  have htot : select orders
      = select (gatewayDeleteOrder orders o.id) + orderQuantity o := by
    rw [select_perm hperm, select_cons, herase, Nat.add_comm]
  refine ⟨?_, ?_, htot, ?_⟩
  · intro o2 ho2
    have := (List.mem_filter.mp ho2).2
    simpa [bne_iff_ne] using this
  · omega
  · intro s r
    simp [readOrders, settleMutation, startMutation, applyMutationSuccess,
      applyGatewayMutation, useGetOrdersData]

/-- A sample order used to instantiate the delete-order theorem. -/
def oA : OrderEntity :=
  { id := "a", userId := "u1",
    itemEntities := [{ id := "x1", productId := "p1", quantity := 3 }] }

/-- A second sample order used to instantiate the delete theorems. -/
def oB : OrderEntity :=
  { id := "b", userId := "u2",
    itemEntities :=
      [ { id := "x2", productId := "p2", quantity := 4 },
        { id := "x3", productId := "p3", quantity := 5 } ] }

/-- Closed instance of `deleteOrder_removes_id_and_subtracts_total` on a
concrete two-order collection. -/
theorem deleteOrder_removes_id_and_subtracts_total_witness :
    oB ∈ [oA, oB]
      ∧ ([oA, oB].map OrderEntity.id).Nodup
      ∧ ((∀ o2 ∈ gatewayDeleteOrder [oA, oB] oB.id, o2.id ≠ oB.id)
        ∧ select (gatewayDeleteOrder [oA, oB] oB.id)
            = select [oA, oB] - orderQuantity oB
        ∧ select [oA, oB]
            = select (gatewayDeleteOrder [oA, oB] oB.id) + orderQuantity oB
        ∧ (∀ (s : RepoState) (r : OrdersResource),
            readOrders
                (settleMutation (startMutation s) r (.delOrder oB.id) (.ok ())).1 r
              = gatewayDeleteOrder (s.gatewayData r) oB.id)) :=
  ⟨by decide, by decide,
    deleteOrder_removes_id_and_subtracts_total [oA, oB] oB (by decide) (by decide)⟩

/-- C5: a failed delete mutation settles as a rejected operation, leaves both
the cache and the gateway data at their last-known-good state, and the
processing flag is false once the mutation settles — whether it failed or
succeeded. -/
theorem mutation_failure_surfaced_cache_intact (s : RepoState)
    (r : OrdersResource) (m : Mutation) (e : String) (h : s.pending = 0) :
    (settleMutation (startMutation s) r m (.error e)).2 = .error e
      ∧ (settleMutation (startMutation s) r m (.error e)).1.cache = s.cache
      ∧ (settleMutation (startMutation s) r m (.error e)).1.gatewayData
          = s.gatewayData
      ∧ isOrdersProcessingSelector
          (settleMutation (startMutation s) r m (.error e)).1 = false
      ∧ isOrdersProcessingSelector
          (settleMutation (startMutation s) r m (.ok ())).1 = false := by
  refine ⟨rfl, rfl, rfl, ?_, ?_⟩ <;>
    simp [settleMutation, startMutation, isOrdersProcessingSelector, h]

/-- Closed instance of `mutation_failure_surfaced_cache_intact` on a concrete
quiescent repository state. -/
theorem mutation_failure_surfaced_cache_intact_witness :
    sampleRepoState.pending = 0
      ∧ ((settleMutation (startMutation sampleRepoState) .localR
              (.delOrder "a") (.error "boom")).2 = .error "boom"
        ∧ (settleMutation (startMutation sampleRepoState) .localR
              (.delOrder "a") (.error "boom")).1.cache = sampleRepoState.cache
        ∧ (settleMutation (startMutation sampleRepoState) .localR
              (.delOrder "a") (.error "boom")).1.gatewayData
            = sampleRepoState.gatewayData
        ∧ isOrdersProcessingSelector
            (settleMutation (startMutation sampleRepoState) .localR
              (.delOrder "a") (.error "boom")).1 = false
        ∧ isOrdersProcessingSelector
            (settleMutation (startMutation sampleRepoState) .localR
              (.delOrder "a") (.ok ())).1 = false) :=
  ⟨rfl,
    mutation_failure_surfaced_cache_intact sampleRepoState .localR
      (.delOrder "a") "boom" rfl⟩

/-- C3: while the fetch has not settled or has failed, `useGetOrders` falls
back to the empty sequence as its data, and `useTotalItemsQuantitySelector`
evaluated over that state returns 0 instead of propagating the failure. -/
theorem fetch_failure_falls_back_to_zero :
    useGetOrdersData .failure = [] ∧ useGetOrdersData .loading = []
      ∧ useTotalItemsQuantitySelector .failure = 0
      ∧ useTotalItemsQuantitySelector .loading = 0 :=
  ⟨rfl, rfl, rfl, rfl⟩

/-- C4: cache entries for the `local` and `remote` resources are disjoint:
any sequence of successful delete mutations executed against one resource
leaves the collection read under the other resource unchanged. -/
theorem resource_caches_disjoint (s : RepoState) (ms : List Mutation) :
    readOrders (applyMutations s .localR ms) .remoteR = readOrders s .remoteR
      ∧ readOrders (applyMutations s .remoteR ms) .localR
          = readOrders s .localR := by
  constructor
  · unfold readOrders
    rw [applyMutations_cache_other ms s .localR .remoteR (by simp)]
  · unfold readOrders
    rw [applyMutations_cache_other ms s .remoteR .localR (by simp)]

/-- C7: on the seeded demo collection the summed item quantities total 1825;
deleting the first order (id "1", carrying 365 units) leaves 1460; deleting
the first item (id "i3", 75 units) of the new first order (id "2") leaves
1385. -/
theorem seed_scenario_totals :
    select seedOrders = 1825
      ∧ select (gatewayDeleteOrder seedOrders "1") = 1460
      ∧ select (gatewayDeleteItem (gatewayDeleteOrder seedOrders "1") "2" "i3")
          = 1385
      ∧ seedOrders.head?.map OrderEntity.id = some "1"
      ∧ (gatewayDeleteOrder seedOrders "1").head?.map OrderEntity.id = some "2"
      ∧ ((gatewayDeleteOrder seedOrders "1").head?.map
            (fun o => o.itemEntities.head?.map ItemEntity.id))
          = some (some "i3") := by
  refine ⟨?_, ?_, ?_, rfl, rfl, rfl⟩ <;> rfl

lemma map_eq_self_of_mem {α : Type} (l : List α) (f : α → α)
    (h : ∀ x ∈ l, f x = x) : l.map f = l := by
  induction l with
  | nil => rfl
  | cons x xs ih =>
      rw [List.map_cons, h x (List.mem_cons_self x xs),
        ih (fun y hy => h y (List.mem_cons_of_mem x hy))]

/-- C6: `deleteItem(orderId, itemId)` rewrites only the order with `orderId`
— its surviving items are exactly those whose id differs from `itemId`, kept
in their original relative order — while every order before and after it in
the collection is untouched. -/
theorem deleteItem_frame (pre post : List OrderEntity) (o : OrderEntity)
    (itemId : String)
    (h2 : (((pre ++ o :: post).map OrderEntity.id)).Nodup)
    (_h3 : itemId ∈ o.itemEntities.map ItemEntity.id) :
    gatewayDeleteItem (pre ++ o :: post) o.id itemId
        = pre
            ++ { o with
                  itemEntities :=
                    o.itemEntities.filter (fun it => it.id != itemId) } :: post
      ∧ (o.itemEntities.filter (fun it => it.id != itemId)).Sublist
          o.itemEntities
      ∧ (∀ it ∈ o.itemEntities, it.id ≠ itemId →
            it ∈ o.itemEntities.filter (fun it => it.id != itemId))
      ∧ (∀ it ∈ o.itemEntities.filter (fun it => it.id != itemId),
            it ∈ o.itemEntities ∧ it.id ≠ itemId) := by
  have hids :
      (pre.map OrderEntity.id
        ++ (o.id :: post.map OrderEntity.id)).Nodup := by
    simpa using h2
  have hsplit := List.nodup_append.mp hids
  have hpre : ∀ x ∈ pre, x.id ≠ o.id := by
    intro x hx he
    exact hsplit.2.2 (List.mem_map_of_mem OrderEntity.id hx) (by simp [he])
  have hpost : ∀ x ∈ post, x.id ≠ o.id := by
    intro x hx he
    have : o.id ∉ post.map OrderEntity.id := (List.nodup_cons.mp hsplit.2.1).1
    exact this (he ▸ List.mem_map_of_mem OrderEntity.id hx)
  refine ⟨?_, List.filter_sublist _, ?_, ?_⟩
  · unfold gatewayDeleteItem
    rw [List.map_append, List.map_cons]
    rw [map_eq_self_of_mem pre _ (fun x hx => if_neg (hpre x hx))]
    rw [map_eq_self_of_mem post _ (fun x hx => if_neg (hpost x hx))]
    rw [if_pos rfl]
  · intro it hit hne
    exact List.mem_filter.mpr ⟨hit, by simpa [bne_iff_ne] using hne⟩
  · intro it hit
    have h := List.mem_filter.mp hit
    exact ⟨h.1, by simpa [bne_iff_ne] using h.2⟩

/-- A third sample order used to instantiate the delete-item theorem. -/
def oC : OrderEntity :=
  { id := "c", userId := "u3",
    itemEntities := [{ id := "x4", productId := "p4", quantity := 6 }] }

/-- Closed instance of `deleteItem_frame`: deleting item "x2" of order "b" in
a concrete three-order collection. -/
theorem deleteItem_frame_witness :
    ((([oA] ++ oB :: [oC]).map OrderEntity.id)).Nodup
      ∧ "x2" ∈ oB.itemEntities.map ItemEntity.id
      ∧ (gatewayDeleteItem ([oA] ++ oB :: [oC]) oB.id "x2"
            = [oA]
                ++ { oB with
                      itemEntities :=
                        oB.itemEntities.filter (fun it => it.id != "x2") } :: [oC]
        ∧ (oB.itemEntities.filter (fun it => it.id != "x2")).Sublist
            oB.itemEntities
        ∧ (∀ it ∈ oB.itemEntities, it.id ≠ "x2" →
              it ∈ oB.itemEntities.filter (fun it => it.id != "x2"))
        ∧ (∀ it ∈ oB.itemEntities.filter (fun it => it.id != "x2"),
              it ∈ oB.itemEntities ∧ it.id ≠ "x2")) :=
  ⟨by decide, by decide,
    deleteItem_frame [oA] [oC] oB "x2" (by decide) (by decide)⟩

/-- C8: `isLastOrderIdSelector(id)` is true exactly when the collection is
non-empty and `id` is the id of its final element; it is false for any id not
present in the collection and false for every id on the empty collection. -/
theorem isLastOrderId_characterisation (orders : List OrderEntity)
    (orderId : String) :
    (isLastOrderIdSelector orders orderId = true
        ↔ orders ≠ []
            ∧ ∃ o, orders.getLast? = some o ∧ o.id = orderId)
      ∧ (orderId ∉ orders.map OrderEntity.id →
            isLastOrderIdSelector orders orderId = false)
      ∧ isLastOrderIdSelector [] orderId = false := by
  have hmem : ∀ o : OrderEntity, orders.getLast? = some o → o ∈ orders := by
    intro o h
    obtain ⟨hne, heq⟩ := List.mem_getLast?_eq_getLast (Option.mem_def.mpr h)
    exact heq ▸ List.getLast_mem hne
  have hchar : isLastOrderIdSelector orders orderId = true
      ↔ orders ≠ [] ∧ ∃ o, orders.getLast? = some o ∧ o.id = orderId := by
    unfold isLastOrderIdSelector
    cases h : orders.getLast? with
    | none =>
        have hnil : orders = [] := List.getLast?_eq_none_iff.mp h
        simp [hnil]
    | some o =>
        have hne : orders ≠ [] := by
          intro hnil
          rw [hnil] at h
          cases h
        simp only [beq_iff_eq]
        constructor
        · intro hid
          exact ⟨hne, o, rfl, hid⟩
        · rintro ⟨-, o2, ho2, hid⟩
          cases ho2
          exact hid
  refine ⟨hchar, ?_, rfl⟩
  intro hnotin
  by_contra hne
  have htrue : isLastOrderIdSelector orders orderId = true := by
    cases hb : isLastOrderIdSelector orders orderId
    · exact absurd hb hne
    · rfl
  obtain ⟨-, o, ho, hid⟩ := hchar.mp htrue
  exact hnotin (hid ▸ List.mem_map_of_mem OrderEntity.id (hmem o ho))

/-- Closed instance of `isLastOrderId_characterisation` on a concrete
two-order collection, querying the last order's id. -/
theorem isLastOrderId_characterisation_witness :
    (isLastOrderIdSelector [oA, oB] "b" = true
        ↔ ([oA, oB] : List OrderEntity) ≠ []
            ∧ ∃ o, ([oA, oB] : List OrderEntity).getLast? = some o
                ∧ o.id = "b")
      ∧ ("b" ∉ [oA, oB].map OrderEntity.id →
            isLastOrderIdSelector [oA, oB] "b" = false)
      ∧ isLastOrderIdSelector [] "b" = false :=
  isLastOrderId_characterisation [oA, oB] "b"

/-- C9: `orderIdsSelector` returns exactly the sequence of order ids of the
cached collection, id by id in the fetched order, and the empty sequence
while the query is loading or has failed. -/
theorem orderIds_preserve_order_and_identity (orders : List OrderEntity) :
    useOrderIdsSelector (.success orders) = orders.map OrderEntity.id
      ∧ (useOrderIdsSelector (.success orders)).length = orders.length
      ∧ (∀ i : Nat,
          (useOrderIdsSelector (.success orders))[i]?
            = orders[i]?.map OrderEntity.id)
      ∧ useOrderIdsSelector .loading = []
      ∧ useOrderIdsSelector .failure = [] := by
  refine ⟨rfl, by simp [useOrderIdsSelector, orderIdsSelector, useGetOrdersData],
    ?_, rfl, rfl⟩
  intro i
  simp [useOrderIdsSelector, orderIdsSelector, useGetOrdersData]

/-- C10: a consumer holding a stale id observes a total absence result at the
view boundary — for an `orderId` absent from the snapshot the Order presenter
returns `{ hasOrder: false }` (and the OrderItem view under it renders
nothing), and for an `itemId` absent from its order the OrderItem view
renders nothing. -/
theorem stale_ids_yield_absence (orders : List OrderEntity)
    (isProcessingOrders : Bool) (orderId itemId : String) :
    (orderId ∉ orders.map OrderEntity.id →
        usePresenter orders isProcessingOrders orderId = .noOrder
          ∧ (usePresenter orders isProcessingOrders orderId).hasOrder = false
          ∧ renderOrderItem orders orderId itemId = none)
      ∧ ((∀ o ∈ orders, o.id = orderId →
            itemId ∉ o.itemEntities.map ItemEntity.id) →
          renderOrderItem orders orderId itemId = none) := by
  constructor
  · intro hnotin
    have hfind : orderByIdSelector orders orderId = none := by
      unfold orderByIdSelector
      rw [List.find?_eq_none]
      intro o ho
      simp only [beq_iff_eq]
      intro he
      exact hnotin (he ▸ List.mem_map_of_mem OrderEntity.id ho)
    refine ⟨?_, ?_, ?_⟩
    · unfold usePresenter
      rw [hfind]
    · unfold usePresenter
      rw [hfind]
      rfl
    · unfold renderOrderItem itemByIdSelector
      rw [hfind]
      rfl
  · intro habsent
    unfold renderOrderItem itemByIdSelector
    cases hfind : orderByIdSelector orders orderId with
    | none => rfl
    | some o =>
        have ho_mem : o ∈ orders := List.mem_of_find?_eq_some hfind
        have ho_id : o.id = orderId := by
          have := List.find?_some hfind
          simpa [beq_iff_eq] using this
        have hitem : o.itemEntities.find? (fun it => it.id == itemId) = none := by
          rw [List.find?_eq_none]
          intro it hit
          simp only [beq_iff_eq]
          intro he
          exact habsent o ho_mem ho_id
            (he ▸ List.mem_map_of_mem ItemEntity.id hit)
        simp [hitem]

/-- Closed instance of `stale_ids_yield_absence`: querying order id "z"
(absent) and item id "zz" (absent from every order) in a concrete
collection. -/
theorem stale_ids_yield_absence_witness :
    (("z" : String) ∉ [oA, oB].map OrderEntity.id →
        usePresenter [oA, oB] false "z" = .noOrder
          ∧ (usePresenter [oA, oB] false "z").hasOrder = false
          ∧ renderOrderItem [oA, oB] "z" "zz" = none)
      ∧ ((∀ o ∈ [oA, oB], o.id = "z" →
            ("zz" : String) ∉ o.itemEntities.map ItemEntity.id) →
          renderOrderItem [oA, oB] "z" "zz" = none) :=
  stale_ids_yield_absence [oA, oB] false "z" "zz"

end Orders
